import Mathlib

/-!
Verification development for `src/InvenTree/company/serializers.py`.

The serializers are embedded shallowly: request payloads and model
instances are finite string-keyed maps over a small value type, the
generic create/update path of the framework is a fold writing each
remaining key, and each custom hook (`SupplierPartSerializer.create`,
`SupplierPartSerializer.update`, `CompanySerializer.save`) is a pure
function following the Python source line by line.  Constructor-time
field toggling is embedded as a function from the keyword arguments to
the resulting active field list (the `Meta.fields` list with the popped
names removed).
-/

/-- A JSON-ish scalar value as it appears in a request payload or on a
model instance: the Python `None`, an integer, or a string. -/
inductive Value where
  | none : Value
  | int : Int → Value
  | str : String → Value
deriving DecidableEq, Repr

/-- Python truthiness of a `Value`: `None`, `0` and `""` are falsy. -/
def Value.truthy : Value → Bool
  | .none => false
  | .int i => i != 0
  | .str s => s != ""

/-- A Python dict with string keys, as an association list (first
binding of a key wins, mirroring unique-key dicts). -/
abbrev Dict := List (String × Value)

/-- `d.get(k)` with default `None`. -/
def dictGet (d : Dict) (k : String) : Value :=
  (d.lookup k).getD Value.none

/-- `k in d` (key membership). -/
def dictKeys (d : Dict) : List String :=
  d.map Prod.fst

/-- The dict with every binding of `k` removed; together with `dictGet`
this is `d.pop(k, None)`. -/
def dictRemove (d : Dict) (k : String) : Dict :=
  d.filter (fun p => p.1 != k)

/-- `setattr`-style functional write of one field. -/
def dictSet (d : Dict) (k : String) (v : Value) : Dict :=
  (k, v) :: dictRemove d k

/-- The generic (framework) update path: write every key of `data` onto
the instance and return it.  `super().update(instance, data)`. -/
def genericUpdate (inst : Dict) (data : Dict) : Dict :=
  data.foldl (fun i kv => dictSet i kv.1 kv.2) inst

/-- The generic (framework) create path: start from the model field
defaults and write every validated key.  `super().create(validated_data)`. -/
def genericCreate (defaults : Dict) (data : Dict) : Dict :=
  genericUpdate defaults data

/-- Modelled from the spec: `SupplierPart.update_available_quantity`
lives in `company/models.py`, outside the given sources.  Per the spec
it is the dedicated update path for the availability quantity: it
stores the new quantity and stamps the availability-updated timestamp. -/
def update_available_quantity (sp : Dict) (quantity : Value) (now : Int) : Dict :=
  dictSet (dictSet sp "available" quantity) "availability_updated" (Value.int now)

/-- `SupplierPartSerializer.__init__`, line 248: whether the `data`
keyword argument (the original payload, absent modelled as `Option.none`)
contains the key `available`:
`self.has_available_quantity = 'available' in kwargs.get('data', {})`. -/
def SupplierPartSerializer.initHasAvailable (dataKw : Option Dict) : Bool :=
  (dictKeys (dataKw.getD [])).contains "available"

/-- `SupplierPartSerializer.update(supplier_part, data)`: pop
`available` from the data, run the generic update on the rest, then, if
the popped value is non-`None` and the original payload had the key,
apply `update_available_quantity`. -/
def SupplierPartSerializer.update (hasAvail : Bool) (supplier_part : Dict)
    (data : Dict) (now : Int) : Dict :=
  let available := dictGet data "available"
  let response := genericUpdate supplier_part (dictRemove data "available")
  if available != Value.none && hasAvail then
    update_available_quantity response available now
  else
    response

/-- Modelled from the spec: `SupplierPart.save(manufacturer=..., MPN=...)`
(in `company/models.py`, outside the given sources) links or creates an
associated ManufacturerPart with the given manufacturer and MPN.  We
record the keyword arguments of that secondary save. -/
structure ManufacturerPartLink where
  manufacturer : Value
  MPN : Value
deriving DecidableEq, Repr

/-- `SupplierPartSerializer.create(validated_data)`: pop `available`,
run the generic create, conditionally apply `update_available_quantity`,
then read `manufacturer` and `MPN` from the raw `initial_data` and, if
both are truthy, perform the secondary save with those keyword
arguments.  Returns the created instance together with the secondary
save, if one happened. -/
def SupplierPartSerializer.create (hasAvail : Bool) (defaults : Dict)
    (validated_data : Dict) (initial_data : Dict) (now : Int) :
    Dict × Option ManufacturerPartLink :=
  let available := dictGet validated_data "available"
  let supplier_part := genericCreate defaults (dictRemove validated_data "available")
  let supplier_part :=
    if available != Value.none && hasAvail then
      update_available_quantity supplier_part available now
    else
      supplier_part
  let manufacturer := dictGet initial_data "manufacturer"
  let mpn := dictGet initial_data "MPN"
  if manufacturer.truthy && mpn.truthy then
    (supplier_part, some ⟨manufacturer, mpn⟩)
  else
    (supplier_part, Option.none)

/-! ## Constructor-time field toggling

Each serializer's `__init__` pops flag keyword arguments and removes the
corresponding optional fields from the active field set.  A flag is an
`Option Bool`: `Option.none` means the keyword argument was omitted. -/

/-- `ManufacturerPartSerializer.Meta.fields`. -/
def ManufacturerPartSerializer.metaFields : List String :=
  ["pk", "part", "part_detail", "pretty_name", "manufacturer",
   "manufacturer_detail", "description", "MPN", "link"]

/-- `ManufacturerPartSerializer.__init__`: `part_detail` and
`manufacturer_detail` default to `True`, `pretty` to `False`; a field is
popped when its flag is not `True`. -/
def ManufacturerPartSerializer.initFields (part_detail manufacturer_detail
    pretty : Option Bool) : List String :=
  let pd := part_detail.getD true
  let md := manufacturer_detail.getD true
  let pr := pretty.getD false
  let fs := ManufacturerPartSerializer.metaFields
  let fs := if pd then fs else fs.erase "part_detail"
  let fs := if md then fs else fs.erase "manufacturer_detail"
  if pr then fs else fs.erase "pretty_name"

/-- `ManufacturerPartParameterSerializer.Meta.fields`. -/
def ManufacturerPartParameterSerializer.metaFields : List String :=
  ["pk", "manufacturer_part", "manufacturer_part_detail", "name", "value", "units"]

/-- `ManufacturerPartParameterSerializer.__init__`: the
`manufacturer_part_detail` flag (`man_detail`) defaults to `False`; the
field is popped when the flag is falsy. -/
def ManufacturerPartParameterSerializer.initFields (man_detail : Option Bool) :
    List String :=
  let md := man_detail.getD false
  let fs := ManufacturerPartParameterSerializer.metaFields
  if md then fs else fs.erase "manufacturer_part_detail"

/-- `SupplierPartSerializer.Meta.fields`. -/
def SupplierPartSerializer.metaFields : List String :=
  ["available", "availability_updated", "description", "in_stock", "link",
   "manufacturer", "manufacturer_detail", "manufacturer_part",
   "manufacturer_part_detail", "MPN", "note", "pk", "barcode_hash",
   "packaging", "pack_size", "part", "part_detail", "pretty_name", "SKU",
   "supplier", "supplier_detail", "url", "updated"]

/-- `SupplierPartSerializer.__init__` field toggling: `brief` defaults to
`False`; the three detail flags default to `not brief`; `pretty` defaults
to `False`.  Disabling `manufacturer_detail` also pops
`manufacturer_part_detail`. -/
def SupplierPartSerializer.initFields (brief part_detail supplier_detail
    manufacturer_detail pretty : Option Bool) : List String :=
  let b := brief.getD false
  let detail_default := !b
  let pd := part_detail.getD detail_default
  let sd := supplier_detail.getD detail_default
  let md := manufacturer_detail.getD detail_default
  let pr := pretty.getD false
  let fs := SupplierPartSerializer.metaFields
  let fs := if pd then fs else fs.erase "part_detail"
  let fs := if sd then fs else fs.erase "supplier_detail"
  let fs := if md then fs else (fs.erase "manufacturer_detail").erase "manufacturer_part_detail"
  if pr then fs else fs.erase "pretty_name"

/-- `SupplierPriceBreakSerializer.Meta.fields`. -/
def SupplierPriceBreakSerializer.metaFields : List String :=
  ["pk", "part", "part_detail", "quantity", "price", "price_currency",
   "supplier", "supplier_detail", "updated"]

/-- `SupplierPriceBreakSerializer.__init__`: `supplier_detail` and
`part_detail` both default to `False`; each field is popped when its
flag is falsy. -/
def SupplierPriceBreakSerializer.initFields (supplier_detail part_detail :
    Option Bool) : List String :=
  let sd := supplier_detail.getD false
  let pd := part_detail.getD false
  let fs := SupplierPriceBreakSerializer.metaFields
  let fs := if sd then fs else fs.erase "supplier_detail"
  if pd then fs else fs.erase "part_detail"

/-- Line 411: the embedded `part_detail` sub-serializer of a price break
is a `SupplierPartSerializer(source='part', brief=True, ...)` — brief
mode, every other toggle keyword omitted. -/
def SupplierPriceBreakSerializer.partDetailEmbeddedFields : List String :=
  SupplierPartSerializer.initFields (some true) Option.none Option.none
    Option.none Option.none

/-! ## Field-level validation -/

/-- The framework `ChoiceField`: a submitted value is accepted iff it is
one of the configured choices, otherwise a field-level validation error. -/
def ChoiceField.clean (choices : List String) (v : String) : Except String String :=
  if v ∈ choices then Except.ok v else Except.error "invalid choice"

/-- `CompanySerializer.currency`: a `ChoiceField` whose choices are the
configured currency code mappings (`codes` parametrises the external
configuration). -/
def CompanySerializer.validateCurrency (codes : List String) (v : String) :
    Except String String :=
  ChoiceField.clean codes v

/-- `SupplierPriceBreakSerializer.price_currency`: a `ChoiceField` over
the same configured currency code mappings. -/
def SupplierPriceBreakSerializer.validatePriceCurrency (codes : List String)
    (v : String) : Except String String :=
  ChoiceField.clean codes v

/-- The role flags of a `Company` record that matter for the constrained
reference fields. -/
structure Company where
  pk : Nat
  is_supplier : Bool
  is_manufacturer : Bool
deriving DecidableEq, Repr

/-- The framework `PrimaryKeyRelatedField`: resolve a submitted primary
key against the field's queryset; a key not in the queryset is a
validation error. -/
def PrimaryKeyRelatedField.clean (queryset : List Company) (pk : Nat) :
    Except String Company :=
  match queryset.find? (fun c => c.pk == pk) with
  | some c => Except.ok c
  | Option.none => Except.error "object does not exist"

/-- `SupplierPartSerializer.supplier`, line 275: queryset constrained to
`Company.objects.filter(is_supplier=True)` over the database `db`. -/
def SupplierPartSerializer.validateSupplier (db : List Company) (pk : Nat) :
    Except String Company :=
  PrimaryKeyRelatedField.clean (db.filter (fun c => c.is_supplier)) pk

/-- `ManufacturerPartSerializer.manufacturer`, line 167: queryset
constrained to `Company.objects.filter(is_manufacturer=True)`. -/
def ManufacturerPartSerializer.validateManufacturer (db : List Company)
    (pk : Nat) : Except String Company :=
  PrimaryKeyRelatedField.clean (db.filter (fun c => c.is_manufacturer)) pk

/-! ## Company remote-image persistence -/

/-- The in-memory image produced by the remote-image fetch mixin: its
reported format (the Python attribute may be `None` or empty) and the
raw bytes as fetched from the remote URL (which the save path never
stores directly). -/
structure RemoteImage where
  format : Option String
  rawFetched : List Nat
deriving DecidableEq, Repr

/-- `fmt = remote_img.format or 'PNG'` — Python `or`, so a missing or
empty format falls back to `"PNG"`. -/
def RemoteImage.resolvedFormat (img : RemoteImage) : String :=
  match img.format with
  | some f => if f = "" then "PNG" else f
  | Option.none => "PNG"

/-- ASCII lower-case table, for the Python `str.lower()` applied to an
image format name (image format names are ASCII). -/
def lowerPairs : List (Char × Char) :=
  [('A','a'), ('B','b'), ('C','c'), ('D','d'), ('E','e'), ('F','f'), ('G','g'),
   ('H','h'), ('I','i'), ('J','j'), ('K','k'), ('L','l'), ('M','m'), ('N','n'),
   ('O','o'), ('P','p'), ('Q','q'), ('R','r'), ('S','s'), ('T','t'), ('U','u'),
   ('V','v'), ('W','w'), ('X','x'), ('Y','y'), ('Z','z')]

/-- Lower-case one ASCII character. -/
def charLower (c : Char) : Char := (lowerPairs.lookup c).getD c

/-- `s.lower()` on ASCII strings. -/
def strLower (s : String) : String := String.mk (s.data.map charLower)

/-- The deterministic stored filename,
`f"company_{company.pk}_image.{fmt.lower()}"`. -/
def companyImageFilename (pk : Nat) (fmt : String) : String :=
  "company_" ++ toString pk ++ "_image." ++ strLower fmt

/-- `CompanySerializer.save`, lines 104-126, after the generic save: if
a remote image was fetched and the instance exists, re-encode the image
in the resolved format into a buffer (`encode` parametrises the external
image library) and store the buffer under the deterministic filename.
Returns the stored `(filename, content)` pair, if any. -/
def CompanySerializer.saveImage (instancePk : Option Nat)
    (remote_image_file : Option RemoteImage)
    (encode : RemoteImage → String → List Nat) : Option (String × List Nat) :=
  match remote_image_file, instancePk with
  | some img, some pk =>
      let fmt := img.resolvedFormat
      some (companyImageFilename pk fmt, encode img fmt)
  | _, _ => Option.none

/-! ## Dictionary lemmas -/

theorem lookup_dictRemove_ne (d : Dict) (k k' : String) (h : k ≠ k') :
    (dictRemove d k').lookup k = d.lookup k := by
  induction d with
  | nil => rfl
  | cons p t ih =>
    by_cases hp : p.1 = k'
    · have hb : (p.1 != k') = false := by simp [hp]
      have hk : (k == p.1) = false := by simp [hp, h]
      simp [dictRemove, List.filter_cons, hb, List.lookup, hk]
      simpa [dictRemove] using ih
    · have hb : (p.1 != k') = true := by simp [hp]
      simp [dictRemove, List.filter_cons, hb, List.lookup]
      by_cases hk : k = p.1
      · simp [hk]
      · have hk2 : (k == p.1) = false := by simp [hk]
        simp [hk2]
        simpa [dictRemove] using ih

theorem dictGet_dictSet_same (d : Dict) (k : String) (v : Value) :
    dictGet (dictSet d k v) k = v := by
  simp [dictGet, dictSet, List.lookup]

theorem dictGet_dictSet_ne (d : Dict) (k k' : String) (v : Value) (h : k ≠ k') :
    dictGet (dictSet d k' v) k = dictGet d k := by
  have hk : (k == k') = false := by simp [h]
  simp [dictGet, dictSet, List.lookup, hk, lookup_dictRemove_ne d k k' h]

theorem not_mem_keys_dictRemove (d : Dict) (k : String) :
    k ∉ dictKeys (dictRemove d k) := by
  intro hmem
  rcases List.mem_map.mp hmem with ⟨p, hp, hfst⟩
  rcases List.mem_filter.mp hp with ⟨_, hne⟩
  rw [hfst] at hne
  simp at hne

theorem dictGet_of_not_mem_keys (d : Dict) (k : String) (h : k ∉ dictKeys d) :
    dictGet d k = Value.none := by
  induction d with
  | nil => rfl
  | cons p t ih =>
    have hne : k ≠ p.1 := fun he => h (by simp [dictKeys, he])
    have hk : (k == p.1) = false := by simp [hne]
    have ht : k ∉ dictKeys t := fun hm => h (by simp [dictKeys] at hm ⊢; exact Or.inr hm)
    simp [dictGet, List.lookup, hk] at *
    exact ih ht

theorem dictGet_genericUpdate_of_not_mem (data : Dict) (inst : Dict) (k : String)
    (h : k ∉ dictKeys data) :
    dictGet (genericUpdate inst data) k = dictGet inst k := by
  induction data generalizing inst with
  | nil => rfl
  | cons p t ih =>
    have hne : k ≠ p.1 := fun he => h (by simp [dictKeys, he])
    have ht : k ∉ dictKeys t := fun hm => h (by simp [dictKeys] at hm ⊢; exact Or.inr hm)
    show dictGet (genericUpdate (dictSet inst p.1 p.2) t) k = dictGet inst k
    rw [ih (dictSet inst p.1 p.2) ht, dictGet_dictSet_ne inst k p.1 p.2 hne]

theorem dictGet_update_available_quantity_available (sp : Dict) (v : Value) (now : Int) :
    dictGet (update_available_quantity sp v now) "available" = v := by
  rw [update_available_quantity,
    dictGet_dictSet_ne _ _ _ _ (by decide), dictGet_dictSet_same]

theorem dictGet_update_available_quantity_updated (sp : Dict) (v : Value) (now : Int) :
    dictGet (update_available_quantity sp v now) "availability_updated" = Value.int now := by
  rw [update_available_quantity, dictGet_dictSet_same]

theorem initHasAvailable_iff (d : Dict) :
    SupplierPartSerializer.initHasAvailable (some d) = true ↔ "available" ∈ dictKeys d := by
  simp [SupplierPartSerializer.initHasAvailable, List.contains, List.elem_iff]

theorem keys_dictRemove_subset (d : Dict) (k k' : String) :
    k ∈ dictKeys (dictRemove d k') → k ∈ dictKeys d := by
  intro h
  rcases List.mem_map.mp h with ⟨p, hp, he⟩
  exact List.mem_map.mpr ⟨p, (List.mem_filter.mp hp).1, he⟩

theorem SupplierPartSerializer.update_eq (hasAvail : Bool) (supplier_part data : Dict)
    (now : Int) :
    SupplierPartSerializer.update hasAvail supplier_part data now =
      if dictGet data "available" != Value.none && hasAvail then
        update_available_quantity
          (genericUpdate supplier_part (dictRemove data "available"))
          (dictGet data "available") now
      else
        genericUpdate supplier_part (dictRemove data "available") := rfl

theorem SupplierPartSerializer.create_fst (hasAvail : Bool)
    (defaults validated_data initial_data : Dict) (now : Int) :
    (SupplierPartSerializer.create hasAvail defaults validated_data initial_data now).1 =
      if dictGet validated_data "available" != Value.none && hasAvail then
        update_available_quantity
          (genericCreate defaults (dictRemove validated_data "available"))
          (dictGet validated_data "available") now
      else
        genericCreate defaults (dictRemove validated_data "available") := by
  simp only [SupplierPartSerializer.create]
  split <;> rfl

theorem SupplierPartSerializer.create_snd (hasAvail : Bool)
    (defaults validated_data initial_data : Dict) (now : Int) :
    (SupplierPartSerializer.create hasAvail defaults validated_data initial_data now).2 =
      if (dictGet initial_data "manufacturer").truthy && (dictGet initial_data "MPN").truthy then
        some ⟨dictGet initial_data "manufacturer", dictGet initial_data "MPN"⟩
      else
        Option.none := by
  simp only [SupplierPartSerializer.create]
  split <;> rfl

/-- C1: a SupplierPart create whose original payload carries a non-null
`available` value `v` (so that the same value appears in the validated
data) produces an instance whose availability quantity is `v` and whose
availability-updated timestamp is freshly stamped; a create whose
payload lacks the `available` key leaves both the availability quantity
and (as `availability_updated` is a read-only field, absent from the
validated data) the timestamp at their generic-create values. -/
theorem supplierPart_create_available_semantics
    (defaults payload validated_data initial_data : Dict) (now : Int) :
    (∀ v : Value, v ≠ Value.none →
      dictGet payload "available" = v →
      dictGet validated_data "available" = v →
      dictGet (SupplierPartSerializer.create
          (SupplierPartSerializer.initHasAvailable (some payload))
          defaults validated_data initial_data now).1 "available" = v ∧
      dictGet (SupplierPartSerializer.create
          (SupplierPartSerializer.initHasAvailable (some payload))
          defaults validated_data initial_data now).1 "availability_updated"
        = Value.int now) ∧
    ("available" ∉ dictKeys payload →
      dictGet (SupplierPartSerializer.create
          (SupplierPartSerializer.initHasAvailable (some payload))
          defaults validated_data initial_data now).1 "available"
        = dictGet defaults "available" ∧
      ("availability_updated" ∉ dictKeys validated_data →
        dictGet (SupplierPartSerializer.create
            (SupplierPartSerializer.initHasAvailable (some payload))
            defaults validated_data initial_data now).1 "availability_updated"
          = dictGet defaults "availability_updated")) := by
  constructor
  · intro v hv hp hvd
    have hk : "available" ∈ dictKeys payload := by
      by_contra hnk
      rw [dictGet_of_not_mem_keys payload _ hnk] at hp
      exact hv hp.symm
    have hha : SupplierPartSerializer.initHasAvailable (some payload) = true :=
      (initHasAvailable_iff payload).mpr hk
    have hb : (v != Value.none) = true := bne_iff_ne.mpr hv
    simp [SupplierPartSerializer.create_fst, hvd, hha, hb,
      dictGet_update_available_quantity_available,
      dictGet_update_available_quantity_updated]
  · intro hk
    cases hha : SupplierPartSerializer.initHasAvailable (some payload) with
    | true => exact absurd ((initHasAvailable_iff payload).mp hha) hk
    | false =>
      simp only [SupplierPartSerializer.create_fst, hha, Bool.and_false,
        Bool.false_eq_true, if_false, genericCreate]
      refine ⟨?_, ?_⟩
      · exact dictGet_genericUpdate_of_not_mem _ _ _
          (not_mem_keys_dictRemove validated_data "available")
      · intro hnu
        exact dictGet_genericUpdate_of_not_mem _ _ _
          (fun hm => hnu (keys_dictRemove_subset validated_data _ _ hm))

theorem supplierPart_create_available_semantics_witness :
    (dictGet (SupplierPartSerializer.create
        (SupplierPartSerializer.initHasAvailable (some [("available", Value.int 50)]))
        [("available", Value.int 0), ("availability_updated", Value.none)]
        [("available", Value.int 50)] [] 7).1 "available" = Value.int 50 ∧
     dictGet (SupplierPartSerializer.create
        (SupplierPartSerializer.initHasAvailable (some [("available", Value.int 50)]))
        [("available", Value.int 0), ("availability_updated", Value.none)]
        [("available", Value.int 50)] [] 7).1 "availability_updated" = Value.int 7) ∧
    (dictGet (SupplierPartSerializer.create
        (SupplierPartSerializer.initHasAvailable (some [("note", Value.str "x")]))
        [("available", Value.int 0), ("availability_updated", Value.none)]
        [("note", Value.str "x")] [] 7).1 "available"
      = dictGet [("available", Value.int 0), ("availability_updated", Value.none)] "available" ∧
     dictGet (SupplierPartSerializer.create
        (SupplierPartSerializer.initHasAvailable (some [("note", Value.str "x")]))
        [("available", Value.int 0), ("availability_updated", Value.none)]
        [("note", Value.str "x")] [] 7).1 "availability_updated"
      = dictGet [("available", Value.int 0), ("availability_updated", Value.none)]
          "availability_updated") :=
  ⟨(supplierPart_create_available_semantics
      [("available", Value.int 0), ("availability_updated", Value.none)]
      [("available", Value.int 50)] [("available", Value.int 50)] [] 7).1
      (Value.int 50) (by decide) (by decide) (by decide),
   let h := (supplierPart_create_available_semantics
      [("available", Value.int 0), ("availability_updated", Value.none)]
      [("note", Value.str "x")] [("note", Value.str "x")] [] 7).2 (by decide)
   ⟨h.1, h.2 (by decide)⟩⟩

/-- C2: a SupplierPart create whose raw initial data carries a truthy
`manufacturer` reference and a non-empty `MPN` string performs the
secondary save with exactly those keyword arguments (linking/creating
the ManufacturerPart); if either key is absent from the raw initial
data, no secondary save occurs. -/
theorem supplierPart_create_manufacturerPart_link (hasAvail : Bool)
    (defaults validated_data initial_data : Dict) (now : Int) :
    (∀ m : Value, ∀ s : String,
      dictGet initial_data "manufacturer" = m → m.truthy = true →
      dictGet initial_data "MPN" = Value.str s → s ≠ "" →
      (SupplierPartSerializer.create hasAvail defaults validated_data initial_data now).2
        = some ⟨m, Value.str s⟩) ∧
    (("manufacturer" ∉ dictKeys initial_data ∨ "MPN" ∉ dictKeys initial_data) →
      (SupplierPartSerializer.create hasAvail defaults validated_data initial_data now).2
        = Option.none) := by
  constructor
  · intro m s hm hmt hs hsne
    have hst : (Value.str s).truthy = true := bne_iff_ne.mpr hsne
    simp [SupplierPartSerializer.create_snd, hm, hs, hmt, hst]
  · intro h
    rcases h with h | h
    · have hn := dictGet_of_not_mem_keys initial_data _ h
      simp [SupplierPartSerializer.create_snd, hn, Value.truthy]
    · have hn := dictGet_of_not_mem_keys initial_data _ h
      simp [SupplierPartSerializer.create_snd, hn, Value.truthy]

theorem supplierPart_create_manufacturerPart_link_witness :
    (SupplierPartSerializer.create false [] []
        [("manufacturer", Value.int 3), ("MPN", Value.str "ABC123")] 0).2
      = some ⟨Value.int 3, Value.str "ABC123"⟩ ∧
    (SupplierPartSerializer.create false [] [] [("MPN", Value.str "ABC123")] 0).2
      = Option.none :=
  ⟨(supplierPart_create_manufacturerPart_link false [] []
      [("manufacturer", Value.int 3), ("MPN", Value.str "ABC123")] 0).1
      (Value.int 3) "ABC123" (by decide) (by decide) (by decide) (by decide),
   (supplierPart_create_manufacturerPart_link false [] []
      [("MPN", Value.str "ABC123")] 0).2 (Or.inl (by decide))⟩

/-- C4: in both the custom update and the custom create, the `available`
value is removed from the data before the generic path runs (the key is
absent from what is handed over, and the generic path therefore leaves
the availability quantity of the instance untouched), and the result is
either exactly the generic result or the generic result transformed by
`update_available_quantity` applied afterwards; when the popped value is
`None` or the construction-time flag is off, the result is exactly the
generic one. -/
theorem available_extracted_before_generic_path (hasAvail : Bool)
    (supplier_part data defaults validated_data initial_data : Dict) (now : Int) :
    "available" ∉ dictKeys (dictRemove data "available") ∧
    dictGet (genericUpdate supplier_part (dictRemove data "available")) "available"
      = dictGet supplier_part "available" ∧
    (SupplierPartSerializer.update hasAvail supplier_part data now
       = genericUpdate supplier_part (dictRemove data "available") ∨
     SupplierPartSerializer.update hasAvail supplier_part data now
       = update_available_quantity
           (genericUpdate supplier_part (dictRemove data "available"))
           (dictGet data "available") now) ∧
    ((dictGet data "available" = Value.none ∨ hasAvail = false) →
      SupplierPartSerializer.update hasAvail supplier_part data now
        = genericUpdate supplier_part (dictRemove data "available")) ∧
    ((SupplierPartSerializer.create hasAvail defaults validated_data initial_data now).1
       = genericCreate defaults (dictRemove validated_data "available") ∨
     (SupplierPartSerializer.create hasAvail defaults validated_data initial_data now).1
       = update_available_quantity
           (genericCreate defaults (dictRemove validated_data "available"))
           (dictGet validated_data "available") now) := by
  refine ⟨not_mem_keys_dictRemove data "available",
    dictGet_genericUpdate_of_not_mem _ _ _ (not_mem_keys_dictRemove data "available"),
    ?_, ?_, ?_⟩
  · rw [SupplierPartSerializer.update_eq]
    by_cases h : (dictGet data "available" != Value.none && hasAvail) = true
    · right; rw [if_pos h]
    · left; rw [if_neg h]
  · intro h
    rw [SupplierPartSerializer.update_eq]
    rcases h with h | h <;> simp [h]
  · rw [SupplierPartSerializer.create_fst]
    by_cases h : (dictGet validated_data "available" != Value.none && hasAvail) = true
    · right; rw [if_pos h]
    · left; rw [if_neg h]

theorem available_extracted_before_generic_path_witness :
    SupplierPartSerializer.update false [] [("available", Value.int 5)] 3
      = genericUpdate [] (dictRemove [("available", Value.int 5)] "available") :=
  (available_extracted_before_generic_path false [] [("available", Value.int 5)]
    [] [] [] 3).2.2.2.1 (Or.inr rfl)

/-- C9: when the serializer is constructed without a `data` keyword
argument containing the key `available`, the tracked flag is false and
both hooks ignore any `available` value arriving later: the update
result is exactly the generic update on the data with the key removed
(so the availability quantity of the instance is unchanged), and the
create result is exactly the generic create, its availability quantity
at the model default. -/
theorem available_silently_discarded_without_key (dataKw : Option Dict)
    (supplier_part data defaults validated_data initial_data : Dict) (now : Int)
    (h : ∀ d : Dict, dataKw = some d → "available" ∉ dictKeys d) :
    SupplierPartSerializer.initHasAvailable dataKw = false ∧
    SupplierPartSerializer.update false supplier_part data now
      = genericUpdate supplier_part (dictRemove data "available") ∧
    dictGet (SupplierPartSerializer.update false supplier_part data now) "available"
      = dictGet supplier_part "available" ∧
    (SupplierPartSerializer.create false defaults validated_data initial_data now).1
      = genericCreate defaults (dictRemove validated_data "available") ∧
    dictGet (SupplierPartSerializer.create false defaults validated_data initial_data now).1
        "available"
      = dictGet defaults "available" := by
  have hupd : SupplierPartSerializer.update false supplier_part data now
      = genericUpdate supplier_part (dictRemove data "available") := by
    rw [SupplierPartSerializer.update_eq]; simp
  have hcr : (SupplierPartSerializer.create false defaults validated_data initial_data now).1
      = genericCreate defaults (dictRemove validated_data "available") := by
    rw [SupplierPartSerializer.create_fst]; simp
  refine ⟨?_, hupd, ?_, hcr, ?_⟩
  · cases dataKw with
    | none => rfl
    | some d =>
      cases hc : SupplierPartSerializer.initHasAvailable (some d) with
      | false => rfl
      | true => exact absurd ((initHasAvailable_iff d).mp hc) (h d rfl)
  · rw [hupd]
    exact dictGet_genericUpdate_of_not_mem _ _ _ (not_mem_keys_dictRemove data "available")
  · rw [hcr]
    exact dictGet_genericUpdate_of_not_mem _ _ _
      (not_mem_keys_dictRemove validated_data "available")

theorem available_silently_discarded_without_key_witness :
    SupplierPartSerializer.initHasAvailable (some [("note", Value.str "x")]) = false ∧
    SupplierPartSerializer.update false [] [("available", Value.int 99)] 3
      = genericUpdate [] (dictRemove [("available", Value.int 99)] "available") ∧
    dictGet (SupplierPartSerializer.update false [] [("available", Value.int 99)] 3) "available"
      = dictGet ([] : Dict) "available" ∧
    (SupplierPartSerializer.create false [] [("available", Value.int 99)] [] 3).1
      = genericCreate [] (dictRemove [("available", Value.int 99)] "available") ∧
    dictGet (SupplierPartSerializer.create false [] [("available", Value.int 99)] [] 3).1
        "available"
      = dictGet ([] : Dict) "available" :=
  available_silently_discarded_without_key (some [("note", Value.str "x")])
    [] [("available", Value.int 99)] [] [("available", Value.int 99)] [] 3
    (by intro d hd; cases hd; decide)

set_option maxHeartbeats 1000000 in
theorem mfrPart_toggles : ∀ (pd md pr : Option Bool),
    ("part_detail" ∈ ManufacturerPartSerializer.initFields pd md pr ↔ pd.getD true = true) ∧
    ("manufacturer_detail" ∈ ManufacturerPartSerializer.initFields pd md pr ↔
      md.getD true = true) ∧
    ("pretty_name" ∈ ManufacturerPartSerializer.initFields pd md pr ↔ pr.getD false = true) := by
  decide

theorem mfrPartParam_toggle : ∀ (mpd : Option Bool),
    "manufacturer_part_detail" ∈ ManufacturerPartParameterSerializer.initFields mpd ↔
      mpd.getD false = true := by
  decide

set_option maxHeartbeats 1000000 in
theorem supplierPart_toggles : ∀ (b pd sd md pr : Option Bool),
    ("part_detail" ∈ SupplierPartSerializer.initFields b pd sd md pr ↔
      (pd = some true ∨ (pd = Option.none ∧ b.getD false = false))) ∧
    ("supplier_detail" ∈ SupplierPartSerializer.initFields b pd sd md pr ↔
      (sd = some true ∨ (sd = Option.none ∧ b.getD false = false))) ∧
    ("manufacturer_detail" ∈ SupplierPartSerializer.initFields b pd sd md pr ↔
      (md = some true ∨ (md = Option.none ∧ b.getD false = false))) ∧
    ("pretty_name" ∈ SupplierPartSerializer.initFields b pd sd md pr ↔ pr = some true) := by
  decide

theorem priceBreak_toggles : ∀ (sd pd : Option Bool),
    ("supplier_detail" ∈ SupplierPriceBreakSerializer.initFields sd pd ↔
      sd.getD false = true) ∧
    ("part_detail" ∈ SupplierPriceBreakSerializer.initFields sd pd ↔
      pd.getD false = true) := by
  decide

/-- C3: for each serializer constructor, a toggled optional field is in
the active field set exactly when its flag resolves to true — defaults
`True` for the two ManufacturerPart details, `False` for `pretty` and for
the parameter/price-break details, and, for SupplierPartSerializer, a
detail field is present iff its flag was passed as `True`, or omitted
while not in brief mode. -/
theorem detail_flag_field_presence :
    ∀ (b pd sd md pr mpd : Option Bool),
    ("part_detail" ∈ ManufacturerPartSerializer.initFields pd md pr ↔ pd.getD true = true) ∧
    ("manufacturer_detail" ∈ ManufacturerPartSerializer.initFields pd md pr ↔
      md.getD true = true) ∧
    ("pretty_name" ∈ ManufacturerPartSerializer.initFields pd md pr ↔ pr.getD false = true) ∧
    ("manufacturer_part_detail" ∈ ManufacturerPartParameterSerializer.initFields mpd ↔
      mpd.getD false = true) ∧
    ("part_detail" ∈ SupplierPartSerializer.initFields b pd sd md pr ↔
      (pd = some true ∨ (pd = Option.none ∧ b.getD false = false))) ∧
    ("supplier_detail" ∈ SupplierPartSerializer.initFields b pd sd md pr ↔
      (sd = some true ∨ (sd = Option.none ∧ b.getD false = false))) ∧
    ("manufacturer_detail" ∈ SupplierPartSerializer.initFields b pd sd md pr ↔
      (md = some true ∨ (md = Option.none ∧ b.getD false = false))) ∧
    ("pretty_name" ∈ SupplierPartSerializer.initFields b pd sd md pr ↔ pr = some true) ∧
    ("supplier_detail" ∈ SupplierPriceBreakSerializer.initFields sd pd ↔
      sd.getD false = true) ∧
    ("part_detail" ∈ SupplierPriceBreakSerializer.initFields sd pd ↔
      pd.getD false = true) :=
  fun b pd sd md pr mpd =>
    ⟨(mfrPart_toggles pd md pr).1, (mfrPart_toggles pd md pr).2.1,
     (mfrPart_toggles pd md pr).2.2, mfrPartParam_toggle mpd,
     (supplierPart_toggles b pd sd md pr).1, (supplierPart_toggles b pd sd md pr).2.1,
     (supplierPart_toggles b pd sd md pr).2.2.1, (supplierPart_toggles b pd sd md pr).2.2.2,
     (priceBreak_toggles sd pd).1, (priceBreak_toggles sd pd).2⟩

/-- C8: with `part_detail` enabled, a price break embeds its
SupplierPart through a brief-mode serializer, whose active field set
contains none of the nested detail fields nor the pretty name — the
embedding does not recurse further. -/
theorem priceBreak_brief_embedding_no_recursion :
    "part_detail" ∈ SupplierPriceBreakSerializer.initFields Option.none (some true) ∧
    "part_detail" ∉ SupplierPriceBreakSerializer.partDetailEmbeddedFields ∧
    "supplier_detail" ∉ SupplierPriceBreakSerializer.partDetailEmbeddedFields ∧
    "manufacturer_detail" ∉ SupplierPriceBreakSerializer.partDetailEmbeddedFields ∧
    "manufacturer_part_detail" ∉ SupplierPriceBreakSerializer.partDetailEmbeddedFields ∧
    "pretty_name" ∉ SupplierPriceBreakSerializer.partDetailEmbeddedFields := by
  decide

/-- C6: both currency choice fields accept exactly the codes of the
configured currency mapping and reject everything else with a
field-level error. -/
theorem currency_code_choice_validation (codes : List String) (v : String) :
    (CompanySerializer.validateCurrency codes v = Except.ok v ↔ v ∈ codes) ∧
    ((∃ e, CompanySerializer.validateCurrency codes v = Except.error e) ↔ v ∉ codes) ∧
    (SupplierPriceBreakSerializer.validatePriceCurrency codes v = Except.ok v ↔ v ∈ codes) ∧
    ((∃ e, SupplierPriceBreakSerializer.validatePriceCurrency codes v = Except.error e) ↔
      v ∉ codes) := by
  by_cases h : v ∈ codes <;>
    simp [CompanySerializer.validateCurrency,
      SupplierPriceBreakSerializer.validatePriceCurrency, ChoiceField.clean, h]

theorem clean_filter_error (db : List Company) (pk : Nat) (p : Company → Bool)
    (h : ∀ c ∈ db, c.pk = pk → p c = false) :
    PrimaryKeyRelatedField.clean (db.filter p) pk
      = Except.error "object does not exist" := by
  have hf : (db.filter p).find? (fun c => c.pk == pk) = Option.none := by
    rw [List.find?_eq_none]
    intro x hx hm
    rcases List.mem_filter.mp hx with ⟨hxdb, hxp⟩
    have hpk : x.pk = pk := by simpa using hm
    rw [h x hxdb hpk] at hxp
    exact absurd hxp (by decide)
  simp [PrimaryKeyRelatedField.clean, hf]

theorem clean_filter_ok (db : List Company) (pk : Nat) (p : Company → Bool) (c : Company)
    (h : PrimaryKeyRelatedField.clean (db.filter p) pk = Except.ok c) :
    c.pk = pk ∧ p c = true := by
  unfold PrimaryKeyRelatedField.clean at h
  cases hfind : (db.filter p).find? (fun x => x.pk == pk) with
  | none => rw [hfind] at h; exact absurd h (by simp)
  | some c2 =>
    rw [hfind] at h
    have hcc : c2 = c := by simpa using h
    subst hcc
    refine ⟨by simpa using List.find?_some hfind, ?_⟩
    exact (List.mem_filter.mp (List.mem_of_find?_eq_some hfind)).2

/-- C7: the constrained reference querysets enforce the role flags — a
supplier (resp. manufacturer) primary key that resolves does so to a
company with the matching flag set, and a key all of whose database
matches lack the flag is rejected as a validation error. -/
theorem role_flag_reference_validation (db : List Company) (pk : Nat) :
    ((∀ c ∈ db, c.pk = pk → c.is_supplier = false) →
      SupplierPartSerializer.validateSupplier db pk
        = Except.error "object does not exist") ∧
    (∀ c : Company, SupplierPartSerializer.validateSupplier db pk = Except.ok c →
      c.pk = pk ∧ c.is_supplier = true) ∧
    ((∀ c ∈ db, c.pk = pk → c.is_manufacturer = false) →
      ManufacturerPartSerializer.validateManufacturer db pk
        = Except.error "object does not exist") ∧
    (∀ c : Company, ManufacturerPartSerializer.validateManufacturer db pk = Except.ok c →
      c.pk = pk ∧ c.is_manufacturer = true) := by
  refine ⟨?_, ?_, ?_, ?_⟩
  · intro h
    exact clean_filter_error db pk _ h
  · intro c hc
    exact clean_filter_ok db pk _ c hc
  · intro h
    exact clean_filter_error db pk _ h
  · intro c hc
    exact clean_filter_ok db pk _ c hc

theorem role_flag_reference_validation_witness :
    SupplierPartSerializer.validateSupplier [Company.mk 1 false true] 1
      = Except.error "object does not exist" ∧
    ManufacturerPartSerializer.validateManufacturer [Company.mk 2 true false] 2
      = Except.error "object does not exist" :=
  ⟨(role_flag_reference_validation [Company.mk 1 false true] 1).1 (by decide),
   (role_flag_reference_validation [Company.mk 2 true false] 2).2.2.1 (by decide)⟩

/-- C5: with an existing instance and a fetched remote image, the save
hook stores exactly one image file, named
`company_<pk>_image.<format lower-cased>`, whose content is the byte
serialisation of the fetched in-memory image in its resolved format. -/
theorem company_remote_image_stored_name_content (pk : Nat) (img : RemoteImage)
    (encode : RemoteImage → String → List Nat) :
    CompanySerializer.saveImage (some pk) (some img) encode
      = some (companyImageFilename pk img.resolvedFormat, encode img img.resolvedFormat) ∧
    companyImageFilename pk img.resolvedFormat
      = "company_" ++ toString pk ++ "_image." ++ strLower img.resolvedFormat :=
  ⟨rfl, rfl⟩

/-- C10: a fetched image reporting no format (or an empty one) is
re-encoded as PNG and stored with extension `png`; in every case the
stored filename extension is the lower-cased resolved format and the
stored content is the re-encoding of the in-memory image in that
format, not the raw fetched bytes. -/
theorem company_remote_image_reencoded_format (pk : Nat) (raw : List Nat)
    (img : RemoteImage) (encode : RemoteImage → String → List Nat) :
    (RemoteImage.mk Option.none raw).resolvedFormat = "PNG" ∧
    (RemoteImage.mk (some "") raw).resolvedFormat = "PNG" ∧
    CompanySerializer.saveImage (some pk) (some (RemoteImage.mk Option.none raw)) encode
      = some (companyImageFilename pk "PNG",
              encode (RemoteImage.mk Option.none raw) "PNG") ∧
    companyImageFilename pk "PNG" = "company_" ++ toString pk ++ "_image." ++ "png" ∧
    CompanySerializer.saveImage (some pk) (some img) encode
      = some ("company_" ++ toString pk ++ "_image." ++ strLower img.resolvedFormat,
              encode img img.resolvedFormat) := by
  refine ⟨rfl, rfl, rfl, ?_, rfl⟩
  simp [companyImageFilename, show strLower "PNG" = "png" from by decide]
